import Mathlib

/-!
Shallow embedding of the SSD-TensorFlow inference driver (infer.py) and
proofs of the specification's testable properties about it.

Modelling conventions:
* Python machine state is passed explicitly; there is no IO.
* A Python generator is modelled as the finite list of values it yields;
  an uncaught Python exception is modelled as an `Except.error` carrying a
  `PyExc` value.  An `Except.error` result of `main` corresponds to the
  interpreter printing a stack trace; printed output produced before an
  uncaught exception is not tracked.
* The opaque external primitives (cv2.imread, cv2.resize, the TensorFlow
  session, os.path.exists, pickle loading) are supplied through an
  environment record `Env`; their contracts follow their documentation:
  cv2.imread returns None (here `Option.none`) on decode failure, and
  cv2.resize called with dsize = (w, h) returns an image with `h` rows and
  `w` columns, raising cv2.error when handed None.
* Filesystem writes performed by np.save are recorded as a list of
  (path, value) pairs; directory creation (os.makedirs) is not tracked.
-/

/-- Python exception values that the embedded code can raise or catch.
Each constructor carries the message (the result of str(e)). -/
inductive PyExc where
  | valueError (msg : String)
  | zeroDivisionError (msg : String)
  | cvError (msg : String)
  | indexError (msg : String)
  | attributeError (attr : String)
  | fileNotFoundError (msg : String)
  | ioError (msg : String)
  | keyError (msg : String)
  | unpicklingError (msg : String)
deriving DecidableEq, Repr

/-- The message carried by an exception (str(e)). -/
def excMessage : PyExc → String
  | .valueError m => m
  | .zeroDivisionError m => m
  | .cvError m => m
  | .indexError m => m
  | .attributeError m => m
  | .fileNotFoundError m => m
  | .ioError m => m
  | .keyError m => m
  | .unpicklingError m => m

/-- The image size stored in the training-data preset (preset.image_size),
with fields `w` and `h` as accessed by the source. -/
structure ImgSize where
  w : Nat
  h : Nat
deriving DecidableEq, Repr

/-- A numpy image array as far as the driver observes it: its shape
(height, width, channels) and whether its dtype is floating point. -/
structure NpImg where
  height : Nat
  width : Nat
  channels : Nat
  isFloat : Bool
deriving DecidableEq, Repr

/-- One batch yielded by sample_generator: the stacked image array
(np.array(images), modelled as the list of images) and the names list. -/
structure GenBatch where
  images : List NpImg
  names : List String
deriving DecidableEq, Repr

/-- Python range(start, stop, step) for step > 0: the elements
start, start + step, ... while < stop.  Written in closed form so that it
computes by structural recursion. -/
def rangeUp (start stop step : Int) : List Int :=
  (List.range (((stop - start).toNat + step.toNat - 1) / step.toNat)).map
    (fun i : Nat => start + step * (i : Int))

/-- Python range(start, stop, step) for step < 0: the elements
start, start + step, ... while > stop. -/
def rangeDown (start stop step : Int) : List Int :=
  (List.range (((start - stop).toNat + (-step).toNat - 1) / (-step).toNat)).map
    (fun i : Nat => start + step * (i : Int))

/-- Python range(start, stop, step) as a list; a zero step raises
ValueError (raised when the generator is first advanced). -/
def pyRange (start stop step : Int) : Except PyExc (List Int) :=
  if step = 0 then .error (.valueError "range() arg 3 must not be zero")
  else if 0 < step then .ok (rangeUp start stop step)
  else .ok (rangeDown start stop step)

/-- Python list slicing l[a:b] (step 1): negative indices count from the
end, and both endpoints are clamped to [0, len(l)]. -/
def pySlice {α : Type} (l : List α) (a b : Int) : List α :=
  let n : Int := l.length
  let a' : Nat := (if a < 0 then max (n + a) 0 else min a n).toNat
  let b' : Nat := (if b < 0 then max (n + b) 0 else min b n).toNat
  (l.drop a').take (b' - a')

/-- Python list indexing l[i]: a negative index counts from the end;
an index out of range raises IndexError. -/
def pyIndex {α : Type} (l : List α) (i : Int) : Except PyExc α :=
  let j : Int := if i < 0 then i + l.length else i
  if h : 0 ≤ j ∧ j < (l.length : Int) then
    .ok (l.get ⟨j.toNat, by omega⟩)
  else
    .error (.indexError "list index out of range")

/-- os.path.basename: the final path component, everything after the
last slash (computed from the character list so that it reduces by
structural recursion). -/
def os_path_basename (p : String) : String :=
  String.mk ((p.toList.reverse.takeWhile (fun c => c != '/')).reverse)

/-- cv2.resize(img, dsize) where dsize = (w, h): returns an image with h
rows, w columns and the source's channels and dtype; calling it on None
(a failed cv2.imread) raises cv2.error. -/
def cv2_resize (img : Option NpImg) (dsize : Nat × Nat) : Except PyExc NpImg :=
  match img with
  | none => .error (.cvError "resize: src is empty")
  | some im => .ok { height := dsize.2, width := dsize.1,
                     channels := im.channels, isFloat := im.isFloat }

/-- numpy astype(np.float32): same shape, floating-point dtype. -/
def np_astype_float32 (img : NpImg) : NpImg :=
  { img with isFloat := true }

/-- Sequencing a Python loop whose body can raise: apply f to each element
in order, stopping at the first exception. -/
def mapME {α β : Type} (f : α → Except PyExc β) : List α → Except PyExc (List β)
  | [] => .ok []
  | x :: xs =>
    match f x with
    | .error e => .error e
    | .ok y =>
      match mapME f xs with
      | .error e => .error e
      | .ok ys => .ok (y :: ys)

/-- The body of sample_generator's inner loop for one file:
image = cv2.resize(cv2.imread(image_file), image_size);
images.append(image.astype(np.float32));
names.append(os.path.basename(image_file)). -/
def load_image (imread : String → Option NpImg) (size : Nat × Nat)
    (image_file : String) : Except PyExc (NpImg × String) :=
  match cv2_resize (imread image_file) size with
  | .error e => .error e
  | .ok image => .ok (np_astype_float32 image, os_path_basename image_file)

/-- One iteration of sample_generator's outer loop: decode every file of
the slice and yield (np.array(images), names). -/
def gen_batch (imread : String → Option NpImg) (size : Nat × Nat)
    (files : List String) : Except PyExc GenBatch :=
  match mapME (load_image imread size) files with
  | .error e => .error e
  | .ok pairs => .ok { images := pairs.map Prod.fst, names := pairs.map Prod.snd }

/-- sample_generator(samples, image_size, batch_size) from infer.py:
   image_size = (image_size.w, image_size.h)
   for offset in range(0, len(samples), batch_size):
       files = samples[offset:offset+batch_size]
       ... decode each file ...
       yield np.array(images), names
modelled as the list of all yielded batches, or the first uncaught
exception. -/
def sample_generator (imread : String → Option NpImg) (samples : List String)
    (image_size : ImgSize) (batch_size : Int) : Except PyExc (List GenBatch) :=
  let size : Nat × Nat := (image_size.w, image_size.h)
  match pyRange 0 samples.length batch_size with
  | .error e => .error e
  | .ok offsets =>
    mapME (fun offset => gen_batch imread size
      (pySlice samples offset (offset + batch_size))) offsets

/-- Specification-side regrouping of a list into consecutive chunks of
size b (the last chunk possibly shorter), used to state what the offset
loop of sample_generator computes. -/
def pyChunks {α : Type} (b : Nat) : List α → List (List α)
  | [] => []
  | x :: xs =>
    if h : b = 0 then []
    else (x :: xs).take b :: pyChunks b ((x :: xs).drop b)
termination_by l => l.length
decreasing_by
  simp only [List.length_drop, List.length_cons]
  omega

/-- The command-line arguments of infer.py as parsed by argparse.  These
are exactly the attributes argparse defines on the Namespace; in
particular there is no checkpoint_file attribute. -/
structure Args where
  files : List String
  name : String
  checkpoint : Int
  training_data : String
  output_dir : String
  annotate : Bool
  dump_prediction : Bool
  batch_size : Int

/-- The environment of opaque external capabilities main interacts with.
Pred is the (opaque) type of one sample's raw detection output.
sess_run models sess.run(net.result, ...) on a batch: indexing its result
at i (boxes[i]) gives the i-th sample's detections. -/
structure Env (Pred : Type) where
  checkpoint_state : Option (List String)
  path_exists : String → Bool
  load_training_data : Except PyExc ImgSize
  imread : String → Option NpImg
  sess_run : List NpImg → Nat → Pred

/-- The observable outcome of a completed run of main: the value returned
to sys.exit, the lines printed, and the np.save calls performed. -/
structure RunResult (Pred : Type) where
  exitCode : Int
  output : List String
  writes : List (String × Pred)
deriving DecidableEq

/-- Lines 109-116 of infer.py: the resolved list of files to analyse.
none models the early return 1 after printing '[!] No files specified'. -/
def resolve_files (path_exists : String → Bool) (annotate : Bool)
    (cli_files : List String) : Option (List String) :=
  if annotate then
    let files := if cli_files ≠ [] then cli_files.filter path_exists else []
    if files = [] then none else some files
  else
    some []

/-- The exception classes caught by the except clause on line 101 of
infer.py: (FileNotFoundError, IOError, KeyError).  Any other exception
raised while loading the training data propagates uncaught. -/
def caught_by_training_handler : PyExc → Bool
  | .fileNotFoundError _ => true
  | .ioError _ => true
  | .keyError _ => true
  | _ => false

/-- The informational lines printed by lines 124-130 of infer.py (reprs of
non-string values are abstracted as toString of the relevant fields). -/
def info_lines (args : Args) (checkpoint_file metagraph_file : String)
    (image_size : ImgSize) (n_files : Nat) : List String :=
  ["[i] Project name:       " ++ args.name,
   "[i] Network checkpoint: " ++ checkpoint_file,
   "[i] Metagraph file:     " ++ metagraph_file,
   "[i] Training data:      " ++ args.training_data,
   "[i] Image size:         " ++ toString image_size.w ++ " " ++ toString image_size.h,
   "[i] Number of files:    " ++ toString n_files,
   "[i] Batch size:         " ++ toString args.batch_size]

/-- The np.save calls performed by the dump-prediction loop (lines
156-159 of infer.py) over a whole run: for every batch, one write per
name, at output_dir/name.npy, holding boxes[i] for the i-th name. -/
def dump_writes {Pred : Type} (sess_run : List NpImg → Nat → Pred)
    (output_dir : String) (batches : List GenBatch) : List (String × Pred) :=
  (batches.map (fun b =>
    b.names.mapIdx (fun i n =>
      (output_dir ++ "/" ++ n ++ ".npy", sess_run b.images i)))).flatten

/-- main() of infer.py (named infer_main here because Lean reserves the name main for program entry points), as a function of the argument record and the
environment of external capabilities.  .ok gives the returned exit code
together with the printed lines and the np.save write log; .error models
an uncaught exception (a propagated stack trace). -/
def infer_main {Pred : Type} (env : Env Pred) (args : Args) :
    Except PyExc (RunResult Pred) :=
  match env.checkpoint_state with
  | none => .ok ⟨1, ["[!] No network state found in " ++ args.name], []⟩
  | some all_model_checkpoint_paths =>
    match pyIndex all_model_checkpoint_paths args.checkpoint with
    | .error _ =>
      -- The except-IndexError handler on line 84 evaluates
      -- str(args.checkpoint_file); argparse never defined an attribute
      -- named checkpoint_file, so the attribute access raises
      -- AttributeError before print executes, and the handler catches
      -- only IndexError, so the AttributeError propagates.
      .error (.attributeError "checkpoint_file")
    | .ok checkpoint_file =>
      let metagraph_file := checkpoint_file ++ ".meta"
      if env.path_exists metagraph_file = false then
        .ok ⟨1, ["[!] Cannot find metagraph " ++ metagraph_file], []⟩
      else
        match env.load_training_data with
        | .error e =>
          if caught_by_training_handler e then
            .ok ⟨1, ["[!] Unable to load training data: " ++ excMessage e], []⟩
          else
            .error e
        | .ok image_size =>
          match resolve_files env.path_exists args.annotate args.files with
          | none => .ok ⟨1, ["[!] No files specified"], []⟩
          | some files =>
            let info := info_lines args checkpoint_file metagraph_file
              image_size files.length
            -- Line 144: n_sample_batches = int(math.ceil(len(files) /
            -- args.batch_size)) divides by batch_size before the
            -- generator is first advanced.
            if args.batch_size = 0 then
              .error (.zeroDivisionError "division by zero")
            else
              match sample_generator env.imread files image_size
                  args.batch_size with
              | .error e => .error e
              | .ok batches =>
                let writes :=
                  if args.annotate && args.dump_prediction then
                    dump_writes env.sess_run args.output_dir batches
                  else []
                .ok ⟨0, info ++ ["[i] Creating the model...", "[i] All done."],
                     writes⟩

/-! ### Concrete data for evaluating the definitions -/

/-- A decode environment for concrete evaluations: every file decodes to a
4x6 3-channel uint8 image. -/
def imread0 : String → Option NpImg := fun _ => some ⟨4, 6, 3, false⟩

/-- A decode environment in which the file b.png fails to decode
(cv2.imread returns None). -/
def imreadBad : String → Option NpImg :=
  fun s => if s = "b.png" then none else some ⟨4, 6, 3, false⟩

/-- A concrete sample list (one path with a directory part). -/
def samples0 : List String := ["d/a.png", "b.png", "c.png"]

/-- A concrete target image size with distinct width and height. -/
def isz0 : ImgSize := ⟨320, 240⟩

/-- The resized float image every sample of samples0 decodes to under
imread0 and isz0. -/
def img0 : NpImg := ⟨240, 320, 3, true⟩

/-- The batches sample_generator yields on samples0 with batch size 2
under imread0. -/
def bs0 : List GenBatch :=
  [⟨[img0, img0], ["a.png", "b.png"]⟩, ⟨[img0], ["c.png"]⟩]

/-- A concrete environment for runs of infer_main: three checkpoints,
every path exists, training data loads to isz0, detections are modelled
as Nat values computed from the batch length and the in-batch index. -/
def env0 : Env Nat :=
  { checkpoint_state := some ["model-1", "model-2", "model-3"]
    path_exists := fun _ => true
    load_training_data := .ok isz0
    imread := imread0
    sess_run := fun imgs i => imgs.length * 100 + i }

/-- The environment env0 with a training-data file whose content does not
deserialize (pickle.load raises UnpicklingError). -/
def envUnpick : Env Nat :=
  { env0 with load_training_data := .error (.unpicklingError "invalid load key") }

/-- Concrete command-line arguments: annotate and dump both on,
batch size 2, most recent checkpoint. -/
def args0 : Args :=
  { files := samples0
    name := "test"
    checkpoint := -1
    training_data := "pascal-voc-2007/training-data.pkl"
    output_dir := "test-output"
    annotate := true
    dump_prediction := true
    batch_size := 2 }

/-- An existence predicate for concrete runs: only b.png exists. -/
def existsOnlyB : String → Bool := fun s => s == "b.png"

/-- An existence predicate for concrete runs: only the metagraph file of
the third checkpoint exists. -/
def existsOnlyMeta : String → Bool := fun s => s == "model-3.meta"

/-- An existence predicate for concrete runs: nothing exists. -/
def existsNothing : String → Bool := fun _ => false

/-! ### Lemmas about the Python range embedding -/

theorem rangeUp_eq_nil (start stop step : Int) (h : ¬ start < stop) :
    rangeUp start stop step = [] := by
  unfold rangeUp
  have hd : (stop - start).toNat = 0 := by omega
  rw [hd]
  rcases Nat.eq_zero_or_pos step.toNat with h0 | h0
  · simp [h0]
  · rw [Nat.div_eq_of_lt (by omega)]
    rfl

theorem rangeUp_eq_cons (start stop step : Int) (h1 : 0 < step)
    (h2 : start < stop) :
    rangeUp start stop step = start :: rangeUp (start + step) stop step := by
  unfold rangeUp
  have hs : 0 < step.toNat := by omega
  have hcount : ((stop - start).toNat + step.toNat - 1) / step.toNat
      = ((stop - (start + step)).toNat + step.toNat - 1) / step.toNat + 1 := by
    set s := step.toNat with hs_def
    set d := (stop - start).toNat with hd_def
    have hd : 0 < d := by omega
    have hd' : (stop - (start + step)).toNat = d - s := by omega
    rw [hd']
    rcases le_or_lt d s with hle | hlt
    · have e1 : d - s = 0 := by omega
      have e2 : d + s - 1 = (d - 1) + s := by omega
      rw [e1, e2, Nat.add_div_right _ hs, Nat.div_eq_of_lt (by omega),
        Nat.div_eq_of_lt (by omega)]
    · have e2 : d + s - 1 = ((d - s) + s - 1) + s := by omega
      rw [e2, Nat.add_div_right _ hs]
  rw [hcount, List.range_succ_eq_map]
  simp only [List.map_cons, List.map_map]
  congr 1
  · simp
  · apply List.map_congr_left
    intro i _
    simp [Nat.succ_eq_add_one]
    ring

theorem rangeDown_eq_nil (start stop step : Int) (h : ¬ stop < start) :
    rangeDown start stop step = [] := by
  unfold rangeDown
  have hd : (start - stop).toNat = 0 := by omega
  rw [hd]
  rcases Nat.eq_zero_or_pos (-step).toNat with h0 | h0
  · simp [h0]
  · rw [Nat.div_eq_of_lt (by omega)]
    rfl

theorem rangeUp_shift (start stop step c : Int) :
    rangeUp (start + c) stop step
      = (rangeUp start (stop - c) step).map (fun x => x + c) := by
  unfold rangeUp
  have h1 : stop - (start + c) = (stop - c) - start := by ring
  rw [h1, List.map_map]
  apply List.map_congr_left
  intro i _
  simp only [Function.comp_apply]
  ring

theorem mem_rangeUp_nonneg (start stop step x : Int) (hst : 0 ≤ start)
    (hsp : 0 ≤ step) (hx : x ∈ rangeUp start stop step) : 0 ≤ x := by
  unfold rangeUp at hx
  obtain ⟨i, _, rfl⟩ := List.mem_map.mp hx
  exact add_nonneg hst (mul_nonneg hsp (by positivity))

/-! ### Lemmas about the Python slice embedding -/

theorem pySlice_nonneg {α : Type} (l : List α) (a b : Int) (ha : 0 ≤ a)
    (hb : 0 ≤ b) :
    pySlice l a b = (l.drop a.toNat).take (b.toNat - a.toNat) := by
  have hna : ¬ a < 0 := by omega
  have hnb : ¬ b < 0 := by omega
  simp only [pySlice, hna, hnb, if_false]
  have ha' : (min a (l.length : Int)).toNat = min a.toNat l.length := by omega
  have hb' : (min b (l.length : Int)).toNat = min b.toNat l.length := by omega
  rw [ha', hb']
  have hdrop : l.drop (min a.toNat l.length) = l.drop a.toNat := by
    rcases le_or_lt a.toNat l.length with h | h
    · rw [Nat.min_eq_left h]
    · rw [Nat.min_eq_right (le_of_lt h), List.drop_length,
        Eq.symm (List.drop_eq_nil_iff.mpr (le_of_lt h))]
  rw [hdrop, List.take_eq_take]
  simp only [List.length_drop]
  omega

theorem pySlice_zero {α : Type} (l : List α) (b : Int) (hb : 0 ≤ b) :
    pySlice l 0 b = l.take b.toNat := by
  rw [pySlice_nonneg l 0 b le_rfl hb]
  simp

theorem pySlice_shift {α : Type} (l : List α) (o B : Int) (ho : 0 ≤ o)
    (hB : 0 < B) :
    pySlice l (o + B) (o + B + B) = pySlice (l.drop B.toNat) o (o + B) := by
  rw [pySlice_nonneg l _ _ (by omega) (by omega),
    pySlice_nonneg _ _ _ ho (by omega), List.drop_drop]
  have h1 : B.toNat + o.toNat = (o + B).toNat := by omega
  have h2 : (o + B + B).toNat - (o + B).toNat = B.toNat := by omega
  have h3 : (o + B).toNat - o.toNat = B.toNat := by omega
  rw [h1, h2, h3]

/-! ### Lemmas about pyChunks -/

theorem pyChunks_cons {α : Type} (b : Nat) (hb : b ≠ 0) (x : α) (xs : List α) :
    pyChunks b (x :: xs) = (x :: xs).take b :: pyChunks b ((x :: xs).drop b) := by
  rw [pyChunks]
  simp [hb]

theorem ceilDiv_succ_chunk (n b : Nat) (hb : 0 < b) (hn : 0 < n) :
    (n + b - 1) / b = (n - b + b - 1) / b + 1 := by
  have h1 : n + b - 1 = (n - 1) + b := by omega
  rw [h1, Nat.add_div_right _ hb]
  rcases le_or_lt n b with h2 | h2
  · rw [Nat.div_eq_of_lt (by omega), Nat.div_eq_of_lt (by omega)]
  · have e : n - b + b - 1 = n - 1 := by omega
    rw [e]

theorem pyChunks_flatten {α : Type} (b : Nat) (hb : 0 < b) (l : List α) :
    (pyChunks b l).flatten = l := by
  induction l using pyChunks.induct b with
  | case1 => simp [pyChunks]
  | case2 x xs h0 => omega
  | case3 x xs h0 ih =>
    rw [pyChunks_cons b h0, List.flatten_cons, ih, List.take_append_drop]

theorem pyChunks_length {α : Type} (b : Nat) (hb : 0 < b) (l : List α) :
    (pyChunks b l).length = (l.length + b - 1) / b := by
  induction l using pyChunks.induct b with
  | case1 =>
    simp only [pyChunks, List.length_nil]
    rw [Nat.div_eq_of_lt (by omega)]
  | case2 x xs h0 => omega
  | case3 x xs h0 ih =>
    rw [pyChunks_cons b h0]
    simp only [List.length_cons]
    rw [ih]
    simp only [List.length_drop, List.length_cons]
    exact (ceilDiv_succ_chunk (xs.length + 1) b hb (by omega)).symm

theorem pyChunks_get {α : Type} (b : Nat) (hb : 0 < b) (l : List α) :
    ∀ (k : Nat) (hk : k < (pyChunks b l).length),
      (pyChunks b l)[k] = (l.drop (b * k)).take b := by
  induction l using pyChunks.induct b with
  | case1 => intro k hk; simp [pyChunks] at hk
  | case2 x xs h0 => omega
  | case3 x xs h0 ih =>
    intro k hk
    have hEq : pyChunks b (x :: xs)
        = (x :: xs).take b :: pyChunks b ((x :: xs).drop b) :=
      pyChunks_cons b h0 x xs
    rcases k with _ | k
    · rw [List.getElem_of_eq hEq hk, List.getElem_cons_zero]
      simp
    · have hk' : k < (pyChunks b ((x :: xs).drop b)).length := by
        rw [hEq] at hk
        simpa using hk
      rw [List.getElem_of_eq hEq hk, List.getElem_cons_succ, ih k hk',
        List.drop_drop]
      have e : b + b * k = b * (k + 1) := by ring
      rw [e]

theorem pyChunks_mem {α : Type} (b : Nat) (hb : 0 < b) (l : List α)
    (c : List α) (hc : c ∈ pyChunks b l) : c ≠ [] ∧ c.length ≤ b := by
  induction l using pyChunks.induct b with
  | case1 => simp [pyChunks] at hc
  | case2 x xs h0 => omega
  | case3 x xs h0 ih =>
    rw [pyChunks_cons b h0] at hc
    rcases List.mem_cons.mp hc with rfl | hmem
    · constructor
      · have : 0 < ((x :: xs).take b).length := by
          rw [List.length_take]
          simp only [List.length_cons]
          omega
        exact List.length_pos.mp this
      · rw [List.length_take]
        omega
    · exact ih hmem

theorem pyChunks_cons_of_ne {α : Type} (b : Nat) (hb : b ≠ 0) (l : List α)
    (hl : l ≠ []) :
    pyChunks b l = l.take b :: pyChunks b (l.drop b) := by
  cases l with
  | nil => exact absurd rfl hl
  | cons x xs => exact pyChunks_cons b hb x xs

/-- The offset loop of sample_generator enumerates exactly the consecutive
chunks of the sample list: slicing at the offsets produced by
range(0, len(l), B) yields pyChunks B.toNat l. -/
theorem slices_eq_chunks {α : Type} (B : Int) (hB : 0 < B) (l : List α) :
    (rangeUp 0 (l.length : Int) B).map (fun o => pySlice l o (o + B))
      = pyChunks B.toNat l := by
  suffices h : ∀ (N : Nat) (l : List α), l.length ≤ N →
      (rangeUp 0 (l.length : Int) B).map (fun o => pySlice l o (o + B))
        = pyChunks B.toNat l from h l.length l le_rfl
  intro N
  induction N with
  | zero =>
    intro l hl
    have he : l = [] := by
      cases l with
      | nil => rfl
      | cons a as => simp at hl
    subst he
    rw [rangeUp_eq_nil 0 _ B (by simp)]
    simp [pyChunks]
  | succ N ih =>
    intro l hl
    rcases eq_or_ne l [] with rfl | hne
    · rw [rangeUp_eq_nil 0 _ B (by simp)]
      simp [pyChunks]
    · have hlen : 0 < l.length := List.length_pos.mpr hne
      have hlen' : (0 : Int) < (l.length : Int) := by exact_mod_cast hlen
      rw [rangeUp_eq_cons 0 _ B hB hlen', List.map_cons,
        rangeUp_shift 0 _ B B, List.map_map]
      have hhead : pySlice l 0 (0 + B) = l.take B.toNat := by
        rw [zero_add, pySlice_zero l B (by omega)]
      have htail : ((rangeUp 0 ((l.length : Int) - B) B).map
            ((fun o => pySlice l o (o + B)) ∘ (fun x => x + B)))
          = (rangeUp 0 (((l.drop B.toNat).length : Int)) B).map
            (fun o => pySlice (l.drop B.toNat) o (o + B)) := by
        rcases le_or_lt B (l.length : Int) with hc | hc
        · have hcast : ((l.drop B.toNat).length : Int) = (l.length : Int) - B := by
            simp only [List.length_drop]
            omega
          rw [hcast]
          apply List.map_congr_left
          intro o ho
          have ho' : 0 ≤ o := mem_rangeUp_nonneg 0 _ B o le_rfl (by omega) ho
          simp only [Function.comp_apply]
          exact pySlice_shift l o B ho' hB
        · rw [rangeUp_eq_nil 0 _ B (by omega), rangeUp_eq_nil 0 _ B (by
            simp only [List.length_drop]
            omega)]
          simp
      rw [hhead, htail, ih (l.drop B.toNat) (by
        simp only [List.length_drop]
        omega)]
      rw [pyChunks_cons_of_ne B.toNat (by omega) l hne]

/-! ### Lemmas about mapME -/

theorem mapME_map {α γ β : Type} (f : γ → Except PyExc β) (g : α → γ)
    (l : List α) : mapME f (l.map g) = mapME (fun x => f (g x)) l := by
  induction l with
  | nil => rfl
  | cons x xs ih => simp only [List.map_cons, mapME, ih]

theorem mapME_length {α β : Type} (f : α → Except PyExc β) :
    ∀ (l : List α) (ys : List β), mapME f l = .ok ys → ys.length = l.length := by
  intro l
  induction l with
  | nil =>
    intro ys h
    simp only [mapME, Except.ok.injEq] at h
    subst h
    rfl
  | cons x xs ih =>
    intro ys h
    simp only [mapME] at h
    cases hfx : f x with
    | error e => rw [hfx] at h; simp at h
    | ok y =>
      rw [hfx] at h
      cases hrec : mapME f xs with
      | error e => rw [hrec] at h; simp at h
      | ok ys2 =>
        rw [hrec] at h
        simp only [Except.ok.injEq] at h
        subst h
        simp only [List.length_cons, ih ys2 hrec]

theorem mapME_get {α β : Type} (f : α → Except PyExc β) :
    ∀ (l : List α) (ys : List β), mapME f l = .ok ys →
      ∀ (k : Nat) (hk : k < l.length) (hk2 : k < ys.length),
        f l[k] = .ok ys[k] := by
  intro l
  induction l with
  | nil => intro ys h k hk; simp at hk
  | cons x xs ih =>
    intro ys h k hk hk2
    simp only [mapME] at h
    cases hfx : f x with
    | error e => rw [hfx] at h; simp at h
    | ok y =>
      rw [hfx] at h
      cases hrec : mapME f xs with
      | error e => rw [hrec] at h; simp at h
      | ok ys2 =>
        rw [hrec] at h
        simp only [Except.ok.injEq] at h
        subst h
        rcases k with _ | k
        · simpa using hfx
        · have hk' : k < xs.length := by simpa using hk
          have hk2' : k < ys2.length := by simpa using hk2
          simpa using ih ys2 hrec k hk' hk2'

theorem mapME_mem_ok {α β : Type} (f : α → Except PyExc β) :
    ∀ (l : List α) (ys : List β), mapME f l = .ok ys →
      ∀ x ∈ l, ∃ y, f x = .ok y := by
  intro l
  induction l with
  | nil => intro ys h x hx; simp at hx
  | cons a xs ih =>
    intro ys h x hx
    simp only [mapME] at h
    cases hfx : f a with
    | error e => rw [hfx] at h; simp at h
    | ok y =>
      rw [hfx] at h
      cases hrec : mapME f xs with
      | error e => rw [hrec] at h; simp at h
      | ok ys2 =>
        rcases List.mem_cons.mp hx with rfl | hmem
        · exact ⟨y, hfx⟩
        · exact ih ys2 hrec x hmem

theorem mapME_mem_rev {α β : Type} (f : α → Except PyExc β) :
    ∀ (l : List α) (ys : List β), mapME f l = .ok ys →
      ∀ y ∈ ys, ∃ x ∈ l, f x = .ok y := by
  intro l
  induction l with
  | nil =>
    intro ys h y hy
    simp only [mapME, Except.ok.injEq] at h
    subst h
    simp at hy
  | cons a xs ih =>
    intro ys h y hy
    simp only [mapME] at h
    cases hfx : f a with
    | error e => rw [hfx] at h; simp at h
    | ok y0 =>
      rw [hfx] at h
      cases hrec : mapME f xs with
      | error e => rw [hrec] at h; simp at h
      | ok ys2 =>
        rw [hrec] at h
        simp only [Except.ok.injEq] at h
        subst h
        rcases List.mem_cons.mp hy with rfl | hmem
        · exact ⟨a, List.mem_cons_self a xs, hfx⟩
        · obtain ⟨x, hx, hfx2⟩ := ih ys2 hrec y hmem
          exact ⟨x, List.mem_cons_of_mem a hx, hfx2⟩

/-! ### Lemmas about gen_batch -/

theorem load_image_ok {imread : String → Option NpImg} {sz : Nat × Nat}
    {file : String} {p : NpImg × String}
    (h : load_image imread sz file = .ok p) :
    p.2 = os_path_basename file ∧ p.1.height = sz.2 ∧ p.1.width = sz.1 ∧
    p.1.isFloat = true ∧ (imread file).isSome := by
  cases himg : imread file with
  | none => simp [load_image, cv2_resize, himg] at h
  | some im =>
    simp only [load_image, cv2_resize, himg, np_astype_float32,
      Except.ok.injEq] at h
    rw [← h]
    simp [Option.isSome]

theorem gen_batch_ok {imread : String → Option NpImg} {sz : Nat × Nat}
    {files : List String} {b : GenBatch}
    (h : gen_batch imread sz files = .ok b) :
    b.names = files.map os_path_basename ∧
    b.images.length = files.length ∧
    (∀ img ∈ b.images,
      img.height = sz.2 ∧ img.width = sz.1 ∧ img.isFloat = true) ∧
    (∀ f ∈ files, (imread f).isSome) := by
  simp only [gen_batch] at h
  cases hm : mapME (load_image imread sz) files with
  | error e => rw [hm] at h; simp at h
  | ok pairs =>
    rw [hm] at h
    simp only [Except.ok.injEq] at h
    subst h
    have hlen : pairs.length = files.length := mapME_length _ files pairs hm
    refine ⟨?_, by simpa using hlen, ?_, ?_⟩
    · apply List.ext_getElem
      · simpa using hlen
      · intro k h1 h2
        have hk1 : k < pairs.length := by simpa using h1
        have hk2 : k < files.length := by simpa using h2
        have := mapME_get _ files pairs hm k hk2 hk1
        have hp := load_image_ok this
        simp only [List.getElem_map]
        exact hp.1
    · intro img hmem
      obtain ⟨p, hp, rfl⟩ := List.mem_map.mp hmem
      obtain ⟨x, hx, hfx⟩ := mapME_mem_rev _ files pairs hm p hp
      have := load_image_ok hfx
      exact ⟨this.2.1, this.2.2.1, this.2.2.2.1⟩
    · intro f hf
      obtain ⟨y, hy⟩ := mapME_mem_ok _ files pairs hm f hf
      exact (load_image_ok hy).2.2.2.2

/-- For a positive batch size the generator is exactly gen_batch mapped
over the consecutive chunks of the sample list. -/
theorem sample_generator_eq_chunks (imread : String → Option NpImg)
    (samples : List String) (isz : ImgSize) (B : Int) (hB : 0 < B) :
    sample_generator imread samples isz B
      = mapME (gen_batch imread (isz.w, isz.h)) (pyChunks B.toNat samples) := by
  simp only [sample_generator]
  have hr : pyRange 0 (samples.length : Int) B
      = .ok (rangeUp 0 (samples.length : Int) B) := by
    unfold pyRange
    rw [if_neg (by omega), if_pos hB]
  rw [hr, ← slices_eq_chunks B hB samples, mapME_map]

/-! ### Further helper lemmas -/

theorem sample_generator_zero (imread : String → Option NpImg)
    (samples : List String) (isz : ImgSize) :
    sample_generator imread samples isz 0
      = .error (.valueError "range() arg 3 must not be zero") := by
  simp [sample_generator, pyRange]

theorem sample_generator_neg (imread : String → Option NpImg)
    (samples : List String) (isz : ImgSize) (B : Int) (hB : B < 0) :
    sample_generator imread samples isz B = .ok [] := by
  have h1 : pyRange 0 (samples.length : Int) B = .ok [] := by
    unfold pyRange
    rw [if_neg (by omega), if_neg (by omega),
      rangeDown_eq_nil 0 _ B (by omega)]
  simp [sample_generator, h1, mapME]

theorem mapME_gen_names (imread : String → Option NpImg) (sz : Nat × Nat) :
    ∀ (cs : List (List String)) (bs : List GenBatch),
      mapME (gen_batch imread sz) cs = .ok bs →
      (bs.map GenBatch.names).flatten = cs.flatten.map os_path_basename := by
  intro cs
  induction cs with
  | nil =>
    intro bs h
    simp only [mapME, Except.ok.injEq] at h
    subst h
    simp
  | cons c cs ih =>
    intro bs h
    simp only [mapME] at h
    cases hfc : gen_batch imread sz c with
    | error e => rw [hfc] at h; simp at h
    | ok b =>
      rw [hfc] at h
      cases hrec : mapME (gen_batch imread sz) cs with
      | error e => rw [hrec] at h; simp at h
      | ok bs2 =>
        rw [hrec] at h
        simp only [Except.ok.injEq] at h
        subst h
        simp only [List.map_cons, List.flatten_cons, ih bs2 hrec,
          (gen_batch_ok hfc).1, List.map_append]

theorem pyChunks_get_length {α : Type} (b : Nat) (hb : 0 < b) (l : List α)
    (k : Nat) (hk : k + 1 < (pyChunks b l).length) :
    (pyChunks b l)[k].length = b := by
  rw [pyChunks_get b hb l k (by omega), List.length_take, List.length_drop]
  rw [pyChunks_length b hb l] at hk
  have h1 : k + 2 ≤ (l.length + b - 1) / b := by omega
  have h2 : (k + 2) * b ≤ l.length + b - 1 := (Nat.le_div_iff_mul_le hb).mp h1
  have h3 : (k + 2) * b = b * k + b + b := by ring
  omega

theorem list_get_congr {α : Type} (l : List α) (i j : Nat) (hi : i < l.length)
    (hj : j < l.length) (h : i = j) : l.get ⟨i, hi⟩ = l.get ⟨j, hj⟩ := by
  subst h
  rfl

theorem list_getElem_congr {α : Type} (l : List α) (i j : Nat) (h : i = j)
    (hi : i < l.length) (hj : j < l.length) : l[i] = l[j] := by
  subst h
  rfl

/-! ### The claims -/

/-- Claim C1: for every sample list of length N and every batch size
B > 0, sample_generator yields exactly ceil(N/B) batches (here written
(N + B - 1) / B); the batch sizes sum to N; every batch except possibly
the last has size exactly B; no yielded batch is empty; and for N = 0 it
yields zero batches. -/
theorem spec_c1_batch_count_and_sizes (imread : String → Option NpImg)
    (samples : List String) (isz : ImgSize) (B : Int) (bs : List GenBatch)
    (hB : 0 < B)
    (hok : sample_generator imread samples isz B = .ok bs) :
    bs.length = (samples.length + B.toNat - 1) / B.toNat ∧
    (bs.map (fun x => x.images.length)).sum = samples.length ∧
    (∀ (k : Nat) (hk : k + 1 < bs.length), bs[k].images.length = B.toNat) ∧
    (∀ b ∈ bs, b.images ≠ []) ∧
    (samples = [] → bs = []) := by
  rw [sample_generator_eq_chunks imread samples isz B hB] at hok
  have hb : 0 < B.toNat := by omega
  have hlen : bs.length = (pyChunks B.toNat samples).length :=
    mapME_length _ _ _ hok
  have hmapeq : bs.map (fun x => x.images.length)
      = (pyChunks B.toNat samples).map List.length := by
    apply List.ext_getElem
    · simp [hlen]
    · intro k h1 h2
      simp only [List.getElem_map]
      have hk1 : k < (pyChunks B.toNat samples).length := by simpa using h2
      have hk2 : k < bs.length := by simpa using h1
      have hgb := mapME_get _ _ _ hok k hk1 hk2
      rw [(gen_batch_ok hgb).2.1]
  refine ⟨?_, ?_, ?_, ?_, ?_⟩
  · rw [hlen, pyChunks_length B.toNat hb samples]
  · rw [hmapeq, ← List.length_flatten, pyChunks_flatten B.toNat hb samples]
  · intro k hk
    have hk1 : k < (pyChunks B.toNat samples).length := by omega
    have hk2 : k < bs.length := by omega
    have hgb := mapME_get _ _ _ hok k hk1 hk2
    rw [(gen_batch_ok hgb).2.1]
    exact pyChunks_get_length B.toNat hb samples k (by omega)
  · intro b hbmem
    obtain ⟨c, hc, hgb⟩ := mapME_mem_rev _ _ _ hok b hbmem
    have h1 := (gen_batch_ok hgb).2.1
    have h2 := (pyChunks_mem B.toNat hb samples c hc).1
    intro hcon
    rw [hcon] at h1
    simp only [List.length_nil] at h1
    exact h2 (List.eq_nil_of_length_eq_zero h1.symm)
  · intro hnil
    subst hnil
    simp only [pyChunks, mapME, Except.ok.injEq] at hok
    exact hok.symm

/-- Concrete instantiation of claim C1 on three samples with batch size
2: two batches whose sizes 2 and 1 sum to 3. -/
theorem spec_c1_batch_count_and_sizes_witness :
    (0 : Int) < 2 ∧
    bs0.length = (samples0.length + (2 : Int).toNat - 1) / (2 : Int).toNat ∧
    (bs0.map (fun x => x.images.length)).sum = samples0.length := by
  have h := spec_c1_batch_count_and_sizes imread0 samples0 isz0 2 bs0
    (by norm_num) (by rfl)
  exact ⟨by norm_num, h.1, h.2.1⟩

/-- Claim C10: a positive batch size is a necessary precondition: with
batch_size = 0 the generator raises ValueError (from range) when first
advanced, and with a negative batch_size it yields zero batches even for
a non-empty sample list, so no input is processed. -/
theorem spec_c10_degenerate_batch_sizes :
    (∀ (imread : String → Option NpImg) (samples : List String)
      (isz : ImgSize),
      sample_generator imread samples isz 0
        = .error (.valueError "range() arg 3 must not be zero")) ∧
    (∀ (imread : String → Option NpImg) (samples : List String)
      (isz : ImgSize) (B : Int), B < 0 →
      sample_generator imread samples isz B = .ok []) :=
  ⟨sample_generator_zero, sample_generator_neg⟩

/-- Concrete instantiation of claim C10 at batch sizes 0 and -1 on a
non-empty sample list. -/
theorem spec_c10_degenerate_batch_sizes_witness :
    sample_generator imread0 samples0 isz0 0
      = .error (.valueError "range() arg 3 must not be zero") ∧
    sample_generator imread0 samples0 isz0 (-1) = .ok [] :=
  ⟨spec_c10_degenerate_batch_sizes.1 imread0 samples0 isz0,
   spec_c10_degenerate_batch_sizes.2 imread0 samples0 isz0 (-1) (by norm_num)⟩

/-- Claim C7: a failure to decode any individual file (cv2.imread
returning None) is not caught inside sample_generator: the whole
generator run ends in an uncaught exception, with no per-file skip or
retry. -/
theorem spec_c7_decode_failure_aborts (imread : String → Option NpImg)
    (samples : List String) (isz : ImgSize) (B : Int) (hB : 0 < B)
    (s : String) (hs : s ∈ samples) (hfail : imread s = none) :
    ∃ e, sample_generator imread samples isz B = .error e := by
  cases hres : sample_generator imread samples isz B with
  | error e => exact ⟨e, rfl⟩
  | ok bs =>
    exfalso
    rw [sample_generator_eq_chunks imread samples isz B hB] at hres
    have hmem : s ∈ (pyChunks B.toNat samples).flatten := by
      rw [pyChunks_flatten B.toNat (by omega) samples]
      exact hs
    obtain ⟨c, hc, hsc⟩ := List.mem_flatten.mp hmem
    obtain ⟨bb, hbb⟩ := mapME_mem_ok _ _ _ hres c hc
    have h1 := (gen_batch_ok hbb).2.2.2 s hsc
    rw [hfail] at h1
    simp at h1

/-- Concrete instantiation of claim C7: when b.png fails to decode the
whole generator run ends in cv2.error. -/
theorem spec_c7_decode_failure_aborts_witness :
    sample_generator imreadBad samples0 isz0 2
      = .error (.cvError "resize: src is empty") := by
  obtain ⟨e, he⟩ := spec_c7_decode_failure_aborts imreadBad samples0 isz0 2
    (by norm_num) "b.png" (by simp [samples0]) (by simp [imreadBad])
  rw [he]
  have hcomp : sample_generator imreadBad samples0 isz0 2
      = .error (.cvError "resize: src is empty") := by rfl
  rw [hcomp] at he
  exact he.symm

/-- Claim C4: in every batch the names sequence has the same length as the
images array; the concatenation of the per-batch names is the base
filenames of the samples in order; and for every global index i the
(i mod B)-th name of batch (i div B) is the base filename (directory part
stripped) of samples[i]. -/
theorem spec_c4_names_match_samples (imread : String → Option NpImg)
    (samples : List String) (isz : ImgSize) (B : Int) (bs : List GenBatch)
    (hB : 0 < B)
    (hok : sample_generator imread samples isz B = .ok bs) :
    (∀ b ∈ bs, b.names.length = b.images.length) ∧
    (bs.map GenBatch.names).flatten = samples.map os_path_basename ∧
    (∀ (i : Nat) (hi : i < samples.length),
      ∃ (hk : i / B.toNat < bs.length)
        (hn : i % B.toNat < (bs.get ⟨i / B.toNat, hk⟩).names.length),
        (bs.get ⟨i / B.toNat, hk⟩).names.get ⟨i % B.toNat, hn⟩
          = os_path_basename (samples.get ⟨i, hi⟩)) := by
  rw [sample_generator_eq_chunks imread samples isz B hB] at hok
  have hb : 0 < B.toNat := by omega
  have hlen : bs.length = (pyChunks B.toNat samples).length :=
    mapME_length _ _ _ hok
  refine ⟨?_, ?_, ?_⟩
  · intro b hbmem
    obtain ⟨c, hc, hgb⟩ := mapME_mem_rev _ _ _ hok b hbmem
    rw [(gen_batch_ok hgb).1, (gen_batch_ok hgb).2.1, List.length_map]
  · rw [mapME_gen_names imread (isz.w, isz.h) _ bs hok,
      pyChunks_flatten B.toNat hb samples]
  · intro i hi
    have hkc : i / B.toNat < (pyChunks B.toNat samples).length := by
      rw [pyChunks_length B.toNat hb samples]
      have e1 : samples.length + B.toNat - 1 = (samples.length - 1) + B.toNat := by
        omega
      rw [e1, Nat.add_div_right _ hb]
      exact Nat.lt_succ_of_le (Nat.div_le_div_right (by omega))
    have hk : i / B.toNat < bs.length := by omega
    have hgb := mapME_get _ _ _ hok (i / B.toNat) hkc hk
    have hnames := (gen_batch_ok hgb).1
    have hchunk := pyChunks_get B.toNat hb samples (i / B.toNat) hkc
    have hidx : B.toNat * (i / B.toNat) + i % B.toNat = i := Nat.div_add_mod i _
    have hmod : i % B.toNat < B.toNat := Nat.mod_lt i hb
    have hchunklen : (pyChunks B.toNat samples)[i / B.toNat].length
        = min B.toNat (samples.length - B.toNat * (i / B.toNat)) := by
      rw [hchunk, List.length_take, List.length_drop]
    have hn : i % B.toNat < (bs.get ⟨i / B.toNat, hk⟩).names.length := by
      rw [List.get_eq_getElem, hnames, List.length_map, hchunklen]
      omega
    refine ⟨hk, hn, ?_⟩
    have hn2 : i % B.toNat < bs[i / B.toNat].names.length := hn
    have hn3 : i % B.toNat < (pyChunks B.toNat samples)[i / B.toNat].length := by
      rw [hchunklen]
      omega
    show bs[i / B.toNat].names[i % B.toNat] = os_path_basename samples[i]
    rw [List.getElem_of_eq hnames hn2, List.getElem_map]
    congr 1
    rw [List.getElem_of_eq hchunk hn3, List.getElem_take, List.getElem_drop]
    exact list_getElem_congr samples _ i hidx (by omega) hi

/-- Concrete instantiation of claim C4: the first name of batch 1 (global
index 2) is the base filename of samples0[2], and names pair with images
in every batch. -/
theorem spec_c4_names_match_samples_witness :
    bs0.length = 2 ∧ samples0.length = 3 ∧
    (bs0.map GenBatch.names).flatten = samples0.map os_path_basename := by
  have h := spec_c4_names_match_samples imread0 samples0 isz0 2 bs0
    (by norm_num) (by rfl)
  exact ⟨by rfl, by rfl, h.2.1⟩

/-- Claim C5: every image in every yielded batch has the configured height
and width (regardless of the source image's native resolution, which
imread chooses freely here), and has floating-point dtype. -/
theorem spec_c5_image_shape_and_dtype (imread : String → Option NpImg)
    (samples : List String) (isz : ImgSize) (B : Int) (bs : List GenBatch)
    (hok : sample_generator imread samples isz B = .ok bs) :
    ∀ b ∈ bs, ∀ img ∈ b.images,
      img.height = isz.h ∧ img.width = isz.w ∧ img.isFloat = true := by
  rcases lt_trichotomy B 0 with hB | hB | hB
  · rw [sample_generator_neg imread samples isz B hB] at hok
    simp only [Except.ok.injEq] at hok
    subst hok
    intro b hbmem
    simp at hbmem
  · subst hB
    rw [sample_generator_zero imread samples isz] at hok
    simp at hok
  · rw [sample_generator_eq_chunks imread samples isz B hB] at hok
    intro b hbmem img himg
    obtain ⟨c, hc, hgb⟩ := mapME_mem_rev _ _ _ hok b hbmem
    exact (gen_batch_ok hgb).2.2.1 img himg

/-- Concrete instantiation of claim C5: the decoded image of every batch
of bs0 has height 240 = isz0.h, width 320 = isz0.w and float dtype even
though the source image was 4x6 uint8. -/
theorem spec_c5_image_shape_and_dtype_witness :
    imread0 "d/a.png" = some ⟨4, 6, 3, false⟩ ∧
    img0.height = isz0.h ∧ img0.width = isz0.w ∧ img0.isFloat = true := by
  have h := spec_c5_image_shape_and_dtype imread0 samples0 isz0 2 bs0 (by rfl)
  exact ⟨by rfl, h ⟨[img0, img0], ["a.png", "b.png"]⟩ (by simp [bs0]) img0
    (by simp)⟩

/-! ### Lemmas about dump_writes -/

theorem mapIdx_pair_map_fst {Pred : Type} (sr : List NpImg → Nat → Pred)
    (dir : String) (imgs : List NpImg) (l : List String) :
    ((l.mapIdx (fun i n => (dir ++ "/" ++ n ++ ".npy", sr imgs i))).map
      Prod.fst) = l.map (fun n => dir ++ "/" ++ n ++ ".npy") := by
  rw [List.mapIdx_eq_enum_map, List.map_map]
  have h1 : (Prod.fst ∘ Function.uncurry
        (fun i n => (dir ++ "/" ++ n ++ ".npy", sr imgs i)))
      = (fun p : Nat × String => dir ++ "/" ++ p.2 ++ ".npy") := by
    funext p
    rfl
  rw [h1, show (fun p : Nat × String => dir ++ "/" ++ p.2 ++ ".npy")
      = (fun n => dir ++ "/" ++ n ++ ".npy") ∘ Prod.snd from rfl,
    ← List.map_map, List.enum_map_snd]

theorem dump_writes_map_fst {Pred : Type} (sr : List NpImg → Nat → Pred)
    (dir : String) (bs : List GenBatch) :
    (dump_writes sr dir bs).map Prod.fst
      = (bs.map GenBatch.names).flatten.map
          (fun n => dir ++ "/" ++ n ++ ".npy") := by
  unfold dump_writes
  rw [List.map_flatten, List.map_map, List.map_flatten, List.map_map]
  congr 1
  apply List.map_congr_left
  intro b _
  simp only [Function.comp_apply]
  exact mapIdx_pair_map_fst sr dir b.images b.names

theorem dump_writes_length {Pred : Type} (sr : List NpImg → Nat → Pred)
    (dir : String) (bs : List GenBatch) :
    (dump_writes sr dir bs).length = (bs.map GenBatch.names).flatten.length := by
  unfold dump_writes
  rw [List.length_flatten, List.length_flatten, List.map_map, List.map_map]
  congr 1
  apply List.map_congr_left
  intro b _
  simp [List.length_mapIdx]

/-- Claim C2 (recording the divergence): with three checkpoints available
and --checkpoint 5 requested, the list indexing raises IndexError; the
except-IndexError handler then evaluates str(args.checkpoint_file), an
attribute argparse never defined, so the handler raises an uncaught
AttributeError: the process dies with a stack trace without printing any
message naming the missing checkpoint. -/
theorem spec_c2_checkpoint_out_of_range_crashes :
    infer_main env0 { args0 with checkpoint := 5 }
      = .error (.attributeError "checkpoint_file") := by
  rfl

/-- Claim C3 (counterexample to the claim as stated): a training-data
file whose content does not deserialize raises pickle.UnpicklingError,
which is not in the caught tuple (FileNotFoundError, IOError, KeyError):
the run ends in an uncaught exception instead of a reported single line
and exit code 1. -/
theorem spec_c3_undeserializable_uncaught :
    infer_main envUnpick args0 = .error (.unpicklingError "invalid load key")
      ∧ infer_main envUnpick args0
          ≠ .ok ⟨1, ["[!] Unable to load training data: invalid load key"],
                 []⟩ := by
  constructor
  · rfl
  · intro hr
    rw [show infer_main envUnpick args0
        = .error (.unpicklingError "invalid load key") from rfl] at hr
    exact Except.noConfusion hr

/-- Claim C3 (amended): when loading the training data fails with one of
the exception classes the except clause on line 101 actually catches —
FileNotFoundError (missing file), IOError (I/O error), KeyError (missing
key) — main prints exactly one [!]-prefixed human-readable line and
returns exit code 1, with no retry and no writes; any other exception
(such as pickle.UnpicklingError for undeserializable content) propagates
uncaught. -/
theorem spec_c3_training_data_error_handling (Pred : Type) (env : Env Pred)
    (args : Args) (paths : List String) (cf : String) (e : PyExc)
    (h1 : env.checkpoint_state = some paths)
    (h2 : pyIndex paths args.checkpoint = .ok cf)
    (h3 : env.path_exists (cf ++ ".meta") = true)
    (h4 : env.load_training_data = .error e) :
    (caught_by_training_handler e = true →
      infer_main env args
        = .ok ⟨1, ["[!] Unable to load training data: " ++ excMessage e], []⟩) ∧
    (caught_by_training_handler e = false →
      infer_main env args = .error e) := by
  constructor <;> intro hc <;> simp [infer_main, h1, h2, h3, h4, hc]

/-- Concrete instantiation of claim C3 (amended): a missing key (KeyError
for data['preset']) is reported on a single [!] line with exit code 1. -/
theorem spec_c3_training_data_error_handling_witness :
    infer_main
        { env0 with load_training_data := .error (.keyError "preset") } args0
      = .ok ⟨1, ["[!] Unable to load training data: preset"], []⟩ := by
  have h := spec_c3_training_data_error_handling Nat
    { env0 with load_training_data := .error (.keyError "preset") } args0
    ["model-1", "model-2", "model-3"] "model-3" (.keyError "preset")
    (by rfl) (by rfl) (by rfl) (by rfl)
  exact h.1 (by rfl)

/-- Claim C8: when annotate is on and no positional file survives the
existence filter (none given, or none exists on disk), and all earlier
stages succeeded, main prints the single line "[!] No files specified"
and returns exit code 1 before any model work: no inference output and
no writes. -/
theorem spec_c8_no_files_exit (Pred : Type) (env : Env Pred) (args : Args)
    (paths : List String) (cf : String) (isz : ImgSize)
    (h1 : env.checkpoint_state = some paths)
    (h2 : pyIndex paths args.checkpoint = .ok cf)
    (h3 : env.path_exists (cf ++ ".meta") = true)
    (h4 : env.load_training_data = .ok isz)
    (h5 : args.annotate = true)
    (h6 : args.files.filter env.path_exists = []) :
    infer_main env args = .ok ⟨1, ["[!] No files specified"], []⟩ := by
  have hres : resolve_files env.path_exists args.annotate args.files
      = none := by
    simp only [resolve_files, h5, if_true]
    rcases eq_or_ne args.files [] with hnil | hne
    · simp [hnil]
    · simp [hne, h6]
  simp [infer_main, h1, h2, h3, h4, hres]

/-- Concrete instantiation of claim C8: annotate on, three positional
files given, none exists on disk (only the metagraph exists): exit 1 and
the single No-files line. -/
theorem spec_c8_no_files_exit_witness :
    infer_main { env0 with path_exists := existsOnlyMeta } args0
      = .ok ⟨1, ["[!] No files specified"], []⟩ :=
  spec_c8_no_files_exit Nat
    { env0 with path_exists := existsOnlyMeta } args0
    ["model-1", "model-2", "model-3"] "model-3" isz0
    (by rfl) (by rfl) (by rfl) (by rfl) (by rfl) (by rfl)

/-- Claim C9: the positional files are consulted only when annotate is
true (otherwise the resolved list is always empty); existing files are
kept in their order and nonexistent ones are silently removed with no
per-file error or warning; the error outcome (none, which main turns
into the exit-1 No-files path) occurs exactly when the filtered list is
empty. -/
theorem spec_c9_silent_filtering :
    (∀ (ex : String → Bool) (fs : List String),
      resolve_files ex false fs = some []) ∧
    (∀ (ex : String → Bool) (fs : List String), fs.filter ex ≠ [] →
      resolve_files ex true fs = some (fs.filter ex)) ∧
    (∀ (ex : String → Bool) (fs : List String), fs.filter ex = [] →
      resolve_files ex true fs = none) := by
  refine ⟨fun ex fs => rfl, ?_, ?_⟩
  · intro ex fs hne
    have hfs : fs ≠ [] := by
      rintro rfl
      simp at hne
    simp [resolve_files, hfs, hne]
  · intro ex fs hnil
    rcases eq_or_ne fs [] with rfl | hne
    · simp [resolve_files]
    · simp [resolve_files, hne, hnil]

/-- Concrete instantiation of claim C9: with annotate off nothing is
consulted; with annotate on, of the three given files only the existing
b.png survives, silently; with nothing existing the outcome is none. -/
theorem spec_c9_silent_filtering_witness :
    resolve_files existsOnlyB false samples0 = some [] ∧
    resolve_files existsOnlyB true samples0 = some ["b.png"] ∧
    resolve_files existsNothing true samples0 = none :=
  ⟨spec_c9_silent_filtering.1 existsOnlyB samples0,
   spec_c9_silent_filtering.2.1 existsOnlyB samples0 (by decide),
   spec_c9_silent_filtering.2.2 existsNothing samples0 (by rfl)⟩

/-- Claim C6: prediction dumping happens iff both --annotate and
--dump-prediction are true (the write log is empty whenever the
conjunction fails), and then exactly one write per input sample is
performed, at <output-dir>/<base-filename>.npy, holding that sample's raw
detection output boxes[i] (sess_run of its batch at its in-batch index).
The spec's Streamer contract supplies the positive batch size. -/
theorem spec_c6_dump_prediction (Pred : Type) (env : Env Pred) (args : Args)
    (paths : List String) (cf : String) (isz : ImgSize)
    (files : List String) (bs : List GenBatch)
    (h1 : env.checkpoint_state = some paths)
    (h2 : pyIndex paths args.checkpoint = .ok cf)
    (h3 : env.path_exists (cf ++ ".meta") = true)
    (h4 : env.load_training_data = .ok isz)
    (h5 : resolve_files env.path_exists args.annotate args.files = some files)
    (hB : 0 < args.batch_size)
    (h6 : sample_generator env.imread files isz args.batch_size = .ok bs) :
    infer_main env args = .ok ⟨0,
      info_lines args cf (cf ++ ".meta") isz files.length
        ++ ["[i] Creating the model...", "[i] All done."],
      if args.annotate && args.dump_prediction then
        dump_writes env.sess_run args.output_dir bs
      else []⟩ ∧
    (dump_writes env.sess_run args.output_dir bs).map Prod.fst
      = files.map
          (fun f => args.output_dir ++ "/" ++ os_path_basename f ++ ".npy") ∧
    (dump_writes env.sess_run args.output_dir bs).length = files.length := by
  have hjoin : (bs.map GenBatch.names).flatten
      = files.map os_path_basename := by
    rw [sample_generator_eq_chunks env.imread files isz args.batch_size hB]
      at h6
    rw [mapME_gen_names env.imread (isz.w, isz.h) _ bs h6,
      pyChunks_flatten args.batch_size.toNat (by omega) files]
  refine ⟨?_, ?_, ?_⟩
  · simp [infer_main, h1, h2, h3, h4, h5, show args.batch_size ≠ 0 by omega, h6]
  · rw [dump_writes_map_fst, hjoin, List.map_map]
    rfl
  · rw [dump_writes_length, hjoin, List.length_map]

/-- Concrete instantiation of claim C6: a full run of env0/args0 (both
flags on, batch size 2) writes one .npy file per input sample at the
expected paths. -/
theorem spec_c6_dump_prediction_witness :
    (dump_writes env0.sess_run args0.output_dir bs0).map Prod.fst
      = ["test-output/a.png.npy", "test-output/b.png.npy",
         "test-output/c.png.npy"] ∧
    (dump_writes env0.sess_run args0.output_dir bs0).length
      = samples0.length := by
  have h := spec_c6_dump_prediction Nat env0 args0
    ["model-1", "model-2", "model-3"] "model-3" isz0 samples0 bs0
    (by rfl) (by rfl) (by rfl) (by rfl) (by rfl) (by decide) (by rfl)
  exact ⟨h.2.1, h.2.2⟩
